import Mathlib

/-!
Verification of the pulp repository-management excerpt.

Shallow embedding of:
  * `src/platform/pulp/platform/models/generic.py` — the generic key/value
    store (`GenericKeyValueStore` rows plus the `GenericKeyValueMutableMapping`
    operations), modelled as a list of rows with the Django manager calls
    translated to list operations;
  * `src/pulpcore/pulpcore/app/viewsets/repository.py` — the repository and
    repository-version viewsets, modelled as functions that thread an explicit
    task queue and return either an error or a response.

Pieces of the repository that are referenced but whose code is not in the
excerpt (the `RepositoryVersion.added`/`removed` model methods and the body of
the `tasks.repository.delete_version` task) are modelled from the spec and
marked as such in their doc comments.
-/

/-! ### Part 1: generic key/value store (`generic.py`)

A `GenericKeyValueStore` row carries a generic owner reference
(`content_type` + `object_id`), a `key` and a `value`.  The database table is
modelled as a list of rows; the Django manager on an instance's generic
relation is modelled by filtering the table on the owner.
-/

/-- The generic owner reference of `GenericRelationModel`:
`content_type` plus `object_id`. -/
structure Owner where
  contentType : String
  objectId : String
deriving DecidableEq, Repr

/-- One row of a `GenericKeyValueStore` table: owner reference, key, value. -/
structure KVRow where
  owner : Owner
  key : String
  value : String
deriving DecidableEq, Repr

/-- The backing table, as the list of its rows. -/
abbrev KVStore := List KVRow

/-- Errors surfaced by the mapping operations: Django's
`DoesNotExist` / `MultipleObjectsReturned`, and Python's `KeyError`
(which `__getitem__` / `__delitem__` translate `DoesNotExist` into). -/
inductive DbError where
  | DoesNotExist
  | MultipleObjectsReturned
  | KeyError (key : String)
deriving DecidableEq, Repr

/-- Whether a row belongs to owner `o` under key `k` — the predicate behind
`self.manager.filter(key=key)` on an owner-scoped manager. -/
def kvMatch (o : Owner) (k : String) (r : KVRow) : Bool :=
  decide (r.owner = o) && decide (r.key = k)

/-- `self.manager.get(key=key)`: raises `DoesNotExist` when no row matches and
`MultipleObjectsReturned` when more than one does. -/
def managerGet (o : Owner) (k : String) (s : KVStore) : Except DbError KVRow :=
  match s.filter (kvMatch o k) with
  | [] => .error .DoesNotExist
  | [r] => .ok r
  | _ :: _ :: _ => .error .MultipleObjectsReturned

namespace GenericKeyValueMutableMapping

/-- `__getitem__`: `manager.get(key=key).value`, turning `DoesNotExist` into
`KeyError(key)`. -/
def getitem (o : Owner) (k : String) (s : KVStore) : Except DbError String :=
  match managerGet o k s with
  | .error .DoesNotExist => .error (.KeyError k)
  | .error e => .error e
  | .ok r => .ok r.value

/-- `__setitem__`: `manager.update_or_create` with the key — create the row
when absent, otherwise update the value of the unique matching row.  In the
update branch `managerGet` guarantees exactly one row matches, so the map
touches exactly that row. -/
def setitem (o : Owner) (k v : String) (s : KVStore) : Except DbError KVStore :=
  match managerGet o k s with
  | .error .DoesNotExist => .ok (⟨o, k, v⟩ :: s)
  | .error e => .error e
  | .ok _ => .ok (s.map (fun r => if kvMatch o k r then ⟨o, k, v⟩ else r))

/-- `__delitem__`: `manager.get(key=key).delete()`, turning `DoesNotExist` into
`KeyError(key)`; deletes exactly the fetched row. -/
def delitem (o : Owner) (k : String) (s : KVStore) : Except DbError KVStore :=
  match managerGet o k s with
  | .error .DoesNotExist => .error (.KeyError k)
  | .error e => .error e
  | .ok r => .ok (s.erase r)

/-- `__contains__`: `manager.filter(key=key).exists()`. -/
def contains (o : Owner) (k : String) (s : KVStore) : Bool :=
  s.any (kvMatch o k)

/-- `__len__`: `manager.count()` over the owner's rows. -/
def count (o : Owner) (s : KVStore) : Nat :=
  (s.filter (fun r => decide (r.owner = o))).length

/-- `clear`: `manager.all().delete()` — remove every row of the owner. -/
def clear (o : Owner) (s : KVStore) : KVStore :=
  s.filter (fun r => !decide (r.owner = o))

end GenericKeyValueMutableMapping

/-- The `unique_together = ('key', 'content_type', 'object_id')` constraint of
`GenericKeyValueStore.Meta`: no two rows share both owner and key. -/
def UniqueKV (s : KVStore) : Prop :=
  s.Pairwise (fun a b => ¬(a.owner = b.owner ∧ a.key = b.key))

/-! ### Part 2: `added` / `removed` of a repository version

Modelled from the spec: the `RepositoryVersion` model class itself is not part
of the excerpt (only its viewset is), so its diff methods are taken from the
spec's words: `added()` = content in this version not in predecessor,
`removed()` = content in predecessor not in this version; the predecessor is
`none` for the initial version, whose `added()` is all of its content and
whose `removed()` is empty. -/
structure VersionSnapshot where
  number : Nat
  content : Finset String
deriving DecidableEq

/-- Modelled from the spec: `RepositoryVersion.added()` — content in this
version that is not in the predecessor (everything, for the initial version). -/
def VersionSnapshot.added (cur : VersionSnapshot) (pred : Option VersionSnapshot) :
    Finset String :=
  match pred with
  | none => cur.content
  | some p => cur.content \ p.content

/-- Modelled from the spec: `RepositoryVersion.removed()` — content in the
predecessor that is not in this version (empty, for the initial version). -/
def VersionSnapshot.removed (cur : VersionSnapshot) (pred : Option VersionSnapshot) :
    Finset String :=
  match pred with
  | none => ∅
  | some p => p.content \ cur.content

/-! ### Part 3: repository viewsets (`repository.py`)

The viewset entrypoints are modelled as functions that take their
collaborators explicitly (the version table, the URL resolver, the serializer
outcome), thread the global task queue, and return the queue together with
either an API error or the HTTP response.  `apply_async_with_reservation`
appends a task tagged with its reservation key to the queue and returns the
async-result handle.
-/

/-- `pulpcore.common.tags.RESOURCE_REPOSITORY_TYPE` — the resource-type tag
used for every repository reservation.  Its concrete value is not in the
excerpt; the claims only compare it with itself. -/
def RESOURCE_REPOSITORY_TYPE : String := "repository"

/-- The `Repository` model fields the viewsets use. -/
structure Repository where
  id : String
  name : String
deriving DecidableEq, Repr

/-- The `RepositoryVersion` model fields the viewsets use: primary key, owning
repository, version number, completeness flag. -/
structure RepositoryVersion where
  pk : String
  repositoryPk : String
  number : Nat
  complete : Bool
deriving DecidableEq, Repr

/-- Opaque request body handed to the repository-update serializer and task. -/
abbrev RequestData := List (String × String)

/-- The task functions the viewsets enqueue, with their kwargs. -/
inductive TaskCall where
  | repositoryUpdate (id : String) (data : RequestData) (part : Bool)
  | repositoryDelete (repoId : String)
  | repositoryDeleteVersion (pk : String)
  | repositoryAddAndRemove (repositoryPk : String)
      (addContentUnits removeContentUnits : List String)
deriving DecidableEq, Repr

/-- A queued task: reservation key (tag + resource id) plus the call. -/
structure TaskReservation where
  tag : String
  resourceId : String
  call : TaskCall
deriving DecidableEq, Repr

abbrev TaskQueue := List TaskReservation

/-- `apply_async_with_reservation(tag, resource_id, ...)`: append the task to
the queue under its reservation key and hand back the async-result handle. -/
def apply_async_with_reservation (tag resourceId : String) (call : TaskCall)
    (q : TaskQueue) : TaskQueue × TaskReservation :=
  let t : TaskReservation := ⟨tag, resourceId, call⟩
  (q ++ [t], t)

/-- The responses the modelled entrypoints produce; mutation entrypoints
return `OperationPostponedResponse` over the async results. -/
inductive Response where
  | operationPostponed (results : List TaskReservation)
deriving DecidableEq, Repr

/-- The synchronous API errors of the modelled entrypoints. -/
inductive ApiError where
  | notFound
  | validationError (detail : String)
  | conflict
deriving DecidableEq, Repr

namespace RepositoryViewSet

/-- `RepositoryViewSet.update`: validate via the serializer (an external
collaborator, represented by its outcome: `none` when valid, an error detail
otherwise), then enqueue `tasks.repository.update` reserved on
`(RESOURCE_REPOSITORY_TYPE, instance id)` and answer with an
`OperationPostponedResponse`. -/
def update (serializerError : Option String) (inst : Repository)
    (data : RequestData) (part : Bool) (q : TaskQueue) :
    TaskQueue × Except ApiError Response :=
  match serializerError with
  | some d => (q, .error (.validationError d))
  | none =>
    let (q', r) := apply_async_with_reservation RESOURCE_REPOSITORY_TYPE inst.id
      (.repositoryUpdate inst.id data part) q
    (q', .ok (.operationPostponed [r]))

/-- `RepositoryViewSet.destroy`: enqueue `tasks.repository.delete` reserved on
`(RESOURCE_REPOSITORY_TYPE, repo id)` and answer with an
`OperationPostponedResponse`. -/
def destroy (repo : Repository) (q : TaskQueue) :
    TaskQueue × Except ApiError Response :=
  let (q', r) := apply_async_with_reservation RESOURCE_REPOSITORY_TYPE repo.id
    (.repositoryDelete repo.id) q
  (q', .ok (.operationPostponed [r]))

end RepositoryViewSet

/-- The result of Django URL resolution: the resolved view name and the pk
kwarg of the match. -/
structure ResolverMatch where
  view_name : String
  pk : String
deriving DecidableEq, Repr

/-- The URL-resolution collaborators of `RepositoryVersionViewSet`: Django's
`resolve` (`none` models `Resolver404`) and the existence check the
`HyperlinkedRelatedField` runs against `Content.objects.all()`. -/
structure UrlConf where
  resolve : String → Option ResolverMatch
  contentExists : String → Bool

namespace RepositoryVersionViewSet

/-- The class queryset: `RepositoryVersion.objects.exclude(complete=False)`. -/
def queryset (db : List RepositoryVersion) : List RepositoryVersion :=
  db.filter (fun v => !decide (v.complete = false))

/-- `self.get_object()` of the version viewset: look the version up inside the
class queryset by owning repository and number (`lookup_field = number`,
parent lookup on `repository__pk`). -/
def get_object (db : List RepositoryVersion) (repository_pk : String)
    (number : Nat) : Option RepositoryVersion :=
  (queryset db).find?
    (fun v => decide (v.repositoryPk = repository_pk) && decide (v.number = number))

/-- `RepositoryVersionViewSet.destroy`: fetch the version, then enqueue
`tasks.repository.delete_version` reserved on
`(RESOURCE_REPOSITORY_TYPE, repository_pk)` — the repository id, not the
version id — with the version pk as kwarg. -/
def destroy (db : List RepositoryVersion) (repository_pk : String) (number : Nat)
    (q : TaskQueue) : TaskQueue × Except ApiError Response :=
  match get_object db repository_pk number with
  | none => (q, .error .notFound)
  | some version =>
    let (q', r) := apply_async_with_reservation RESOURCE_REPOSITORY_TYPE
      repository_pk (.repositoryDeleteVersion version.pk) q
    (q', .ok (.operationPostponed [r]))

/-- The message of the two `Invalid hyperlink` rejections of
`get_content_unit_pk`. -/
def invalidHyperlinkDetail (url : String) : String :=
  "Invalid hyperlink. " ++ url

/-- The detail the `HyperlinkedRelatedField` produces for a URL whose pk does
not exist, before `get_content_unit_pk` appends the URL to it. -/
def noSuchObjectDetail : String :=
  "Invalid hyperlink - Object does not exist."

/-- `RepositoryVersionViewSet.get_content_unit_pk`: resolve the URL
(`Resolver404` rejects with the URL in the detail), require the view name to
start with `content` and end with `detail` (else reject with the URL in the
detail), then validate existence via the `HyperlinkedRelatedField` (appending
the URL to its error detail); on success return the pk kwarg. -/
def get_content_unit_pk (conf : UrlConf) (url : String) : Except ApiError String :=
  match conf.resolve url with
  | none => .error (.validationError (invalidHyperlinkDetail url))
  | some resolver =>
    if !resolver.view_name.startsWith "content" || !resolver.view_name.endsWith "detail" then
      .error (.validationError (invalidHyperlinkDetail url))
    else if conf.contentExists resolver.pk then
      .ok resolver.pk
    else
      .error (.validationError (noSuchObjectDetail ++ " " ++ url))

/-- The loop of `RepositoryVersionViewSet.create` over one URL list: resolve
each URL to a content pk, propagating the first `ValidationError`. -/
def resolve_content_units (conf : UrlConf) (urls : List String) :
    Except ApiError (List String) :=
  match urls with
  | [] => .ok []
  | url :: rest =>
    match get_content_unit_pk conf url with
    | .error e => .error e
    | .ok pk =>
      match resolve_content_units conf rest with
      | .error e => .error e
      | .ok pks => .ok (pk :: pks)

/-- The request body of `RepositoryVersionViewSet.create`: each list is
`none` when its key is absent from `request.data`. -/
structure CreateVersionData where
  add_content_units : Option (List String)
  remove_content_units : Option (List String)
deriving DecidableEq, Repr

/-- `RepositoryVersionViewSet.create`: resolve the add list then the remove
list (a missing key leaves the corresponding list empty), and only then
enqueue `tasks.repository.add_and_remove` reserved on
`(RESOURCE_REPOSITORY_TYPE, repository_pk)`, answering with an
`OperationPostponedResponse`. -/
def create (conf : UrlConf) (repository_pk : String) (data : CreateVersionData)
    (q : TaskQueue) : TaskQueue × Except ApiError Response :=
  match resolve_content_units conf (data.add_content_units.getD []) with
  | .error e => (q, .error e)
  | .ok adds =>
    match resolve_content_units conf (data.remove_content_units.getD []) with
    | .error e => (q, .error e)
    | .ok rems =>
      let (q', r) := apply_async_with_reservation RESOURCE_REPOSITORY_TYPE
        repository_pk (.repositoryAddAndRemove repository_pk adds rems) q
      (q', .ok (.operationPostponed [r]))

/-- Whether a URL resolves to an existing content resource: it resolves, the
view name is a content detail view, and the content pk exists. -/
def resolves_to_content (conf : UrlConf) (url : String) : Bool :=
  match conf.resolve url with
  | none => false
  | some resolver =>
    resolver.view_name.startsWith "content" && resolver.view_name.endsWith "detail"
      && conf.contentExists resolver.pk

end RepositoryVersionViewSet

/-! ### Part 4: state-change model for the key/value store

The mutating mapping operations, wrapped so that a raised error leaves the
table unchanged, and the states reachable from the empty table through them.
-/

/-- One mapping operation, as invoked on an owner-scoped manager. -/
inductive KVOp where
  | get (o : Owner) (k : String)
  | set (o : Owner) (k v : String)
  | del (o : Owner) (k : String)
  | clear (o : Owner)

/-- Run one operation against the table; an operation that raises leaves the
table unchanged (reads never change it). -/
def applyOp (op : KVOp) (s : KVStore) : KVStore :=
  match op with
  | .get _ _ => s
  | .set o k v =>
    match GenericKeyValueMutableMapping.setitem o k v s with
    | .ok s' => s'
    | .error _ => s
  | .del o k =>
    match GenericKeyValueMutableMapping.delitem o k s with
    | .ok s' => s'
    | .error _ => s
  | .clear o => GenericKeyValueMutableMapping.clear o s

/-- The tables reachable from the empty table through mapping operations. -/
inductive ReachableKV : KVStore → Prop where
  | empty : ReachableKV []
  | step (op : KVOp) {s : KVStore} : ReachableKV s → ReachableKV (applyOp op s)

/-! ### Helper lemmas about the key/value operations -/

open GenericKeyValueMutableMapping

lemma contains_eq_false_iff (o : Owner) (k : String) (s : KVStore) :
    contains o k s = false ↔ s.filter (kvMatch o k) = [] := by
  simp [contains, List.any_eq_true, List.filter_eq_nil_iff]

lemma filter_map_update (o : Owner) (k : String) (nv : KVRow)
    (hnv : kvMatch o k nv = true) (s : KVStore) :
    (s.map (fun r => if kvMatch o k r then nv else r)).filter (kvMatch o k)
      = (s.filter (kvMatch o k)).map (fun _ => nv) := by
  induction s with
  | nil => simp
  | cons a t ih =>
    by_cases ha : kvMatch o k a
    · simp [ha, hnv, ih]
    · simp [ha, ih]

lemma filter_erase_of_singleton (o : Owner) (k : String) (r : KVRow) (s : KVStore)
    (h : s.filter (kvMatch o k) = [r]) : (s.erase r).filter (kvMatch o k) = [] := by
  induction s with
  | nil => simp at h
  | cons a t ih =>
    by_cases hm : kvMatch o k a
    · rw [List.filter_cons_of_pos hm] at h
      injection h with h1 h2
      subst h1
      rw [List.erase_cons_head]
      exact h2
    · rw [List.filter_cons_of_neg hm] at h
      by_cases har : a = r
      · subst har
        have hmem : a ∈ t.filter (kvMatch o k) := by
          rw [h]; exact List.mem_cons_self a []
        exact absurd (List.of_mem_filter hmem) hm
      · rw [List.erase_cons_tail]
        · rw [List.filter_cons_of_neg hm]
          exact ih h
        · simp [har]

lemma uniqueKV_setitem (o : Owner) (k v : String) (s s' : KVStore)
    (hu : UniqueKV s) (h : setitem o k v s = .ok s') : UniqueKV s' := by
  rcases hf : s.filter (kvMatch o k) with _ | ⟨r, _ | ⟨r2, t⟩⟩ <;>
    simp [setitem, managerGet, hf] at h
  · subst h
    refine List.Pairwise.cons ?_ hu
    intro b hb hcon
    have hmb : kvMatch o k b = true := by
      simp only [kvMatch, Bool.and_eq_true, decide_eq_true_eq]
      exact ⟨hcon.1.symm, hcon.2.symm⟩
    have hmem : b ∈ s.filter (kvMatch o k) := List.mem_filter.mpr ⟨hb, hmb⟩
    rw [hf] at hmem
    exact absurd hmem (List.not_mem_nil b)
  · subst h
    have hproj : ∀ r' : KVRow,
        ((if kvMatch o k r' then (⟨o, k, v⟩ : KVRow) else r')).owner = r'.owner ∧
        ((if kvMatch o k r' then (⟨o, k, v⟩ : KVRow) else r')).key = r'.key := by
      intro r'
      by_cases hm : kvMatch o k r' = true
      · have hm' := hm
        simp only [kvMatch, Bool.and_eq_true, decide_eq_true_eq] at hm'
        simp [hm, hm'.1, hm'.2]
      · simp [hm]
    rw [UniqueKV, List.pairwise_map]
    refine hu.imp ?_
    intro a b hab hcon
    apply hab
    exact ⟨by rw [← (hproj a).1, ← (hproj b).1]; exact hcon.1,
           by rw [← (hproj a).2, ← (hproj b).2]; exact hcon.2⟩

lemma uniqueKV_delitem (o : Owner) (k : String) (s s' : KVStore)
    (hu : UniqueKV s) (h : delitem o k s = .ok s') : UniqueKV s' := by
  rcases hf : s.filter (kvMatch o k) with _ | ⟨r, _ | ⟨r2, t⟩⟩ <;>
    simp [delitem, managerGet, hf] at h
  subst h
  exact List.Pairwise.sublist (List.erase_sublist r s) hu

lemma uniqueKV_applyOp (op : KVOp) (s : KVStore) (hu : UniqueKV s) :
    UniqueKV (applyOp op s) := by
  cases op with
  | get o k => exact hu
  | set o k v =>
    simp only [applyOp]
    split
    next s' heq => exact uniqueKV_setitem o k v s s' hu heq
    next e heq => exact hu
  | del o k =>
    simp only [applyOp]
    split
    next s' heq => exact uniqueKV_delitem o k s s' hu heq
    next e heq => exact hu
  | clear o => exact List.Pairwise.sublist (List.filter_sublist s) hu

/-! ### Claims about the key/value store and the version diff -/

/-- Claim C3: for every repository version with a predecessor, subtracting this
version's `removed()` from the predecessor's content and then adding this
version's `added()` yields exactly this version's content. -/
theorem version_diff_round_trip (cur pred : VersionSnapshot) :
    (pred.content \ cur.removed (some pred)) ∪ cur.added (some pred) = cur.content := by
  simp only [VersionSnapshot.removed, VersionSnapshot.added]
  ext x
  simp only [Finset.mem_union, Finset.mem_sdiff]
  tauto

/-- Claim C4: whenever the upsert `set(O,K,V)` succeeds — whether or not the
key was previously present — a subsequent `get(O,K)` returns `V`. -/
theorem kv_set_then_get (o : Owner) (k v : String) (s s' : KVStore)
    (h : setitem o k v s = .ok s') : getitem o k s' = .ok v := by
  have hnv : kvMatch o k ⟨o, k, v⟩ = true := by simp [kvMatch]
  rcases hf : s.filter (kvMatch o k) with _ | ⟨r, _ | ⟨r2, t⟩⟩ <;>
    simp [setitem, managerGet, hf] at h
  · subst h
    simp [getitem, managerGet, List.filter_cons, hnv, hf]
  · subst h
    simp [getitem, managerGet, filter_map_update o k ⟨o, k, v⟩ hnv s, hf]

/-- Witness for C4: setting key `k` to `v` on the empty table, `get` returns
`v`. -/
theorem kv_set_then_get_witness :
    getitem ⟨"config", "o1"⟩ "k" [⟨⟨"config", "o1"⟩, "k", "v"⟩] = .ok "v" :=
  kv_set_then_get ⟨"config", "o1"⟩ "k" "v" [] [⟨⟨"config", "o1"⟩, "k", "v"⟩] (by rfl)

/-- Claim C5: `delete(O,K)` raises `KeyError` when the key is absent, and after
a successful delete the key is no longer contained and `get(O,K)` raises
`KeyError`. -/
theorem kv_delete_semantics (o : Owner) (k : String) (s : KVStore) :
    (contains o k s = false → delitem o k s = .error (.KeyError k)) ∧
    (∀ s', delitem o k s = .ok s' →
      contains o k s' = false ∧ getitem o k s' = .error (.KeyError k)) := by
  constructor
  · intro hc
    have hf := (contains_eq_false_iff o k s).mp hc
    simp [delitem, managerGet, hf]
  · intro s' h
    rcases hf : s.filter (kvMatch o k) with _ | ⟨r, _ | ⟨r2, t⟩⟩ <;>
      simp [delitem, managerGet, hf] at h
    subst h
    have hnil := filter_erase_of_singleton o k r s hf
    exact ⟨(contains_eq_false_iff o k _).mpr hnil,
           by simp [getitem, managerGet, hnil]⟩

/-- Witness for C5: deleting from the empty table raises `KeyError`, and after
deleting the only row for the key the key is gone and `get` raises
`KeyError`. -/
theorem kv_delete_semantics_witness :
    delitem ⟨"config", "o1"⟩ "k" [] = .error (.KeyError "k") ∧
    (contains ⟨"config", "o1"⟩ "k" [] = false ∧
      getitem ⟨"config", "o1"⟩ "k" [] = .error (.KeyError "k")) :=
  ⟨(kv_delete_semantics ⟨"config", "o1"⟩ "k" []).1 (by rfl),
   (kv_delete_semantics ⟨"config", "o1"⟩ "k" [⟨⟨"config", "o1"⟩, "k", "v"⟩]).2 []
     (by rfl)⟩

/-- Claim C6: every table reachable from the empty table through the mapping
operations (get, set, delete, clear) satisfies the unique-together constraint:
at most one value per key per owner. -/
theorem kv_unique_invariant (s : KVStore) (h : ReachableKV s) : UniqueKV s := by
  induction h with
  | empty => exact List.Pairwise.nil
  | step op hr ih => exact uniqueKV_applyOp op _ ih

/-- Witness for C6 at a concrete reachable table. -/
theorem kv_unique_invariant_witness :
    UniqueKV (applyOp (.set ⟨"config", "o1"⟩ "k" "v") []) :=
  kv_unique_invariant _ (ReachableKV.step _ ReachableKV.empty)

/-! ### Helper lemmas about URL-to-content resolution -/

open RepositoryVersionViewSet

lemma get_content_unit_pk_error_shape (conf : UrlConf) (url : String) (e : ApiError)
    (h : get_content_unit_pk conf url = .error e) :
    (∃ pre, e = .validationError (pre ++ url)) ∧ resolves_to_content conf url = false := by
  unfold get_content_unit_pk at h
  cases hr : conf.resolve url with
  | none =>
    rw [hr] at h
    simp only [Except.error.injEq] at h
    subst h
    exact ⟨⟨"Invalid hyperlink. ", rfl⟩, by simp [resolves_to_content, hr]⟩
  | some resolver =>
    rw [hr] at h
    dsimp only at h
    by_cases hv : (!resolver.view_name.startsWith "content"
        || !resolver.view_name.endsWith "detail") = true
    · rw [if_pos hv] at h
      simp only [Except.error.injEq] at h
      subst h
      refine ⟨⟨"Invalid hyperlink. ", rfl⟩, ?_⟩
      simp only [Bool.or_eq_true, Bool.not_eq_eq_eq_not, Bool.not_true] at hv
      rcases hv with hv | hv <;> simp [resolves_to_content, hr, hv]
    · rw [if_neg hv] at h
      by_cases he : conf.contentExists resolver.pk = true
      · rw [if_pos he] at h
        exact absurd h (by simp)
      · rw [if_neg he] at h
        simp only [Except.error.injEq] at h
        subst h
        refine ⟨⟨noSuchObjectDetail ++ " ", rfl⟩, ?_⟩
        simp [resolves_to_content, hr, Bool.eq_false_iff.mpr he]

lemma get_content_unit_pk_ok (conf : UrlConf) (url pk : String)
    (h : get_content_unit_pk conf url = .ok pk) :
    resolves_to_content conf url = true := by
  unfold get_content_unit_pk at h
  cases hr : conf.resolve url with
  | none => rw [hr] at h; exact absurd h (by simp)
  | some resolver =>
    rw [hr] at h
    dsimp only at h
    by_cases hv : (!resolver.view_name.startsWith "content"
        || !resolver.view_name.endsWith "detail") = true
    · rw [if_pos hv] at h; exact absurd h (by simp)
    · rw [if_neg hv] at h
      by_cases he : conf.contentExists resolver.pk = true
      · simp only [Bool.or_eq_true, Bool.not_eq_eq_eq_not, Bool.not_true, not_or] at hv
        have h1 : resolver.view_name.startsWith "content" = true := by
          cases hb : resolver.view_name.startsWith "content"
          · exact absurd hb hv.1
          · rfl
        have h2 : resolver.view_name.endsWith "detail" = true := by
          cases hb : resolver.view_name.endsWith "detail"
          · exact absurd hb hv.2
          · rfl
        simp [resolves_to_content, hr, he, h1, h2]
      · rw [if_neg he] at h; exact absurd h (by simp)

lemma resolve_content_units_error (conf : UrlConf) (urls : List String) (e : ApiError)
    (h : resolve_content_units conf urls = .error e) :
    ∃ u ∈ urls, get_content_unit_pk conf u = .error e := by
  induction urls with
  | nil => simp [resolve_content_units] at h
  | cons u rest ih =>
    unfold resolve_content_units at h
    cases hg : get_content_unit_pk conf u with
    | error e0 =>
      rw [hg] at h
      simp only [Except.error.injEq] at h
      subst h
      exact ⟨u, List.mem_cons_self u rest, hg⟩
    | ok pk =>
      rw [hg] at h
      cases hrest : resolve_content_units conf rest with
      | error e1 =>
        rw [hrest] at h
        simp only [Except.error.injEq] at h
        subst h
        obtain ⟨u', hu', hg'⟩ := ih hrest
        exact ⟨u', List.mem_cons_of_mem u hu', hg'⟩
      | ok pks =>
        rw [hrest] at h
        exact absurd h (by simp)

lemma resolve_content_units_ok (conf : UrlConf) (urls : List String) (pks : List String)
    (h : resolve_content_units conf urls = .ok pks) :
    ∀ u ∈ urls, resolves_to_content conf u = true := by
  induction urls generalizing pks with
  | nil => simp
  | cons u rest ih =>
    unfold resolve_content_units at h
    cases hg : get_content_unit_pk conf u with
    | error e0 => rw [hg] at h; exact absurd h (by simp)
    | ok pk =>
      rw [hg] at h
      cases hrest : resolve_content_units conf rest with
      | error e1 => rw [hrest] at h; exact absurd h (by simp)
      | ok pks0 =>
        intro x hx
        rcases List.mem_cons.mp hx with rfl | hx'
        · exact get_content_unit_pk_ok conf x pk hg
        · exact ih pks0 hrest x hx'

/-! ### Claims about URL resolution and version creation -/

/-- Claim C10: `get_content_unit_pk` rejects both URLs that do not resolve at
all and URLs that resolve to a route that is not a content detail view (view
name not starting with `content` or not ending with `detail`), in both cases
with a `ValidationError` whose detail contains the URL. -/
theorem url_resolution_rejects (conf : UrlConf) (url : String)
    (h : conf.resolve url = none ∨
      ∃ m, conf.resolve url = some m ∧
        (m.view_name.startsWith "content" = false ∨ m.view_name.endsWith "detail" = false)) :
    get_content_unit_pk conf url = .error (.validationError (invalidHyperlinkDetail url)) ∧
    invalidHyperlinkDetail url = "Invalid hyperlink. " ++ url := by
  refine ⟨?_, rfl⟩
  rcases h with h | ⟨m, hm, hv⟩
  · simp [get_content_unit_pk, h]
  · rcases hv with hv | hv <;> simp [get_content_unit_pk, hm, hv]

/-- Witness for C10: a URL the resolver does not know is rejected with the URL
in the detail. -/
theorem url_resolution_rejects_witness :
    get_content_unit_pk ⟨fun _ => none, fun _ => false⟩ "http://x/y" =
      .error (.validationError (invalidHyperlinkDetail "http://x/y")) ∧
    invalidHyperlinkDetail "http://x/y" = "Invalid hyperlink. " ++ "http://x/y" :=
  url_resolution_rejects ⟨fun _ => none, fun _ => false⟩ "http://x/y" (Or.inl rfl)

/-- Claim C2: when some listed add or remove URL does not resolve to an
existing content resource, `create` returns a `ValidationError` whose detail
contains an offending URL, and the task queue is unchanged — no task is
enqueued. -/
theorem create_version_validation (conf : UrlConf) (repository_pk : String)
    (data : CreateVersionData) (q : TaskQueue)
    (h : ∃ u ∈ data.add_content_units.getD [] ++ data.remove_content_units.getD [],
      resolves_to_content conf u = false) :
    ∃ u ∈ data.add_content_units.getD [] ++ data.remove_content_units.getD [],
      ∃ pre, create conf repository_pk data q = (q, .error (.validationError (pre ++ u))) := by
  obtain ⟨u0, hu0, hfalse⟩ := h
  cases hadd : resolve_content_units conf (data.add_content_units.getD []) with
  | error e =>
    obtain ⟨u, hu, hg⟩ := resolve_content_units_error conf _ e hadd
    obtain ⟨⟨pre, he⟩, _⟩ := get_content_unit_pk_error_shape conf u e hg
    exact ⟨u, List.mem_append_left _ hu, pre, by simp [create, hadd, he]⟩
  | ok adds =>
    cases hrem : resolve_content_units conf (data.remove_content_units.getD []) with
    | error e =>
      obtain ⟨u, hu, hg⟩ := resolve_content_units_error conf _ e hrem
      obtain ⟨⟨pre, he⟩, _⟩ := get_content_unit_pk_error_shape conf u e hg
      exact ⟨u, List.mem_append_right _ hu, pre, by simp [create, hadd, hrem, he]⟩
    | ok rems =>
      exfalso
      rcases List.mem_append.mp hu0 with hmem | hmem
      · exact absurd (resolve_content_units_ok conf _ adds hadd u0 hmem) (by simp [hfalse])
      · exact absurd (resolve_content_units_ok conf _ rems hrem u0 hmem) (by simp [hfalse])

/-- Witness for C2: a single unresolvable add URL makes `create` fail with the
URL in the detail and leaves the queue empty. -/
theorem create_version_validation_witness :
    ∃ u ∈ (CreateVersionData.mk (some ["u1"]) none).add_content_units.getD [] ++
        (CreateVersionData.mk (some ["u1"]) none).remove_content_units.getD [],
      ∃ pre, create ⟨fun _ => none, fun _ => false⟩ "r1"
          (CreateVersionData.mk (some ["u1"]) none) [] =
        ([], .error (.validationError (pre ++ u))) :=
  create_version_validation ⟨fun _ => none, fun _ => false⟩ "r1"
    (CreateVersionData.mk (some ["u1"]) none) [] ⟨"u1", by simp, rfl⟩

/-- Claim C9: a request body that omits `add_content_units`,
`remove_content_units`, or both is not an error — the missing key is treated
as an empty list, and (provided the present list, if any, validates) a task is
enqueued whose corresponding content-unit list is empty. -/
theorem create_missing_keys (conf : UrlConf) (repository_pk : String) (q : TaskQueue) :
    (∃ t, create conf repository_pk ⟨none, none⟩ q =
        (q ++ [t], .ok (.operationPostponed [t])) ∧
      t.call = .repositoryAddAndRemove repository_pk [] []) ∧
    (∀ remUrls rems, resolve_content_units conf remUrls = .ok rems →
      ∃ t, create conf repository_pk ⟨none, some remUrls⟩ q =
          (q ++ [t], .ok (.operationPostponed [t])) ∧
        t.call = .repositoryAddAndRemove repository_pk [] rems) ∧
    (∀ addUrls adds, resolve_content_units conf addUrls = .ok adds →
      ∃ t, create conf repository_pk ⟨some addUrls, none⟩ q =
          (q ++ [t], .ok (.operationPostponed [t])) ∧
        t.call = .repositoryAddAndRemove repository_pk adds []) := by
  refine ⟨?_, ?_, ?_⟩
  · exact ⟨⟨RESOURCE_REPOSITORY_TYPE, repository_pk,
        .repositoryAddAndRemove repository_pk [] []⟩,
      by simp [create, resolve_content_units, apply_async_with_reservation], rfl⟩
  · intro remUrls rems h
    exact ⟨⟨RESOURCE_REPOSITORY_TYPE, repository_pk,
        .repositoryAddAndRemove repository_pk [] rems⟩,
      by simp [create, resolve_content_units, h, apply_async_with_reservation], rfl⟩
  · intro addUrls adds h
    exact ⟨⟨RESOURCE_REPOSITORY_TYPE, repository_pk,
        .repositoryAddAndRemove repository_pk adds []⟩,
      by simp [create, resolve_content_units, h, apply_async_with_reservation], rfl⟩

/-- Witness for C9: all three omission patterns enqueue a task with the
corresponding empty list(s). -/
theorem create_missing_keys_witness :
    (∃ t, create ⟨fun _ => none, fun _ => false⟩ "r1" ⟨none, none⟩ [] =
        ([] ++ [t], .ok (.operationPostponed [t])) ∧
      t.call = .repositoryAddAndRemove "r1" [] []) ∧
    (∃ t, create ⟨fun _ => none, fun _ => false⟩ "r1" ⟨none, some []⟩ [] =
        ([] ++ [t], .ok (.operationPostponed [t])) ∧
      t.call = .repositoryAddAndRemove "r1" [] []) ∧
    (∃ t, create ⟨fun _ => none, fun _ => false⟩ "r1" ⟨some [], none⟩ [] =
        ([] ++ [t], .ok (.operationPostponed [t])) ∧
      t.call = .repositoryAddAndRemove "r1" [] []) :=
  ⟨(create_missing_keys ⟨fun _ => none, fun _ => false⟩ "r1" []).1,
   (create_missing_keys ⟨fun _ => none, fun _ => false⟩ "r1" []).2.1 [] [] rfl,
   (create_missing_keys ⟨fun _ => none, fun _ => false⟩ "r1" []).2.2 [] [] rfl⟩

/-- Claim C1: every repository mutation entrypoint — repository update,
repository delete, version delete and version create — enqueues exactly one
task reserved on `(RESOURCE_REPOSITORY_TYPE, owning repository id)` and
returns an `OperationPostponedResponse` handle rather than the mutation's
result; deleting a version reserves on the repository id, not the version
id (which only appears in the task kwargs). -/
theorem reservation_key_uniform :
    (∀ se inst data part q q' resp,
      RepositoryViewSet.update se inst data part q = (q', Except.ok resp) →
      ∃ t : TaskReservation, q' = q ++ [t] ∧ t.tag = RESOURCE_REPOSITORY_TYPE ∧
        t.resourceId = inst.id ∧ resp = .operationPostponed [t]) ∧
    (∀ repo q q' resp,
      RepositoryViewSet.destroy repo q = (q', Except.ok resp) →
      ∃ t : TaskReservation, q' = q ++ [t] ∧ t.tag = RESOURCE_REPOSITORY_TYPE ∧
        t.resourceId = repo.id ∧ resp = .operationPostponed [t]) ∧
    (∀ db repository_pk number q q' resp,
      RepositoryVersionViewSet.destroy db repository_pk number q = (q', Except.ok resp) →
      ∃ t version, get_object db repository_pk number = some version ∧
        q' = q ++ [t] ∧ t.tag = RESOURCE_REPOSITORY_TYPE ∧
        t.resourceId = repository_pk ∧ t.call = .repositoryDeleteVersion version.pk ∧
        resp = .operationPostponed [t]) ∧
    (∀ conf repository_pk data q q' resp,
      create conf repository_pk data q = (q', Except.ok resp) →
      ∃ t : TaskReservation, q' = q ++ [t] ∧ t.tag = RESOURCE_REPOSITORY_TYPE ∧
        t.resourceId = repository_pk ∧ resp = .operationPostponed [t]) := by
  refine ⟨?_, ?_, ?_, ?_⟩
  · intro se inst data part q q' resp h
    cases se with
    | some d => simp [RepositoryViewSet.update] at h
    | none =>
      simp only [RepositoryViewSet.update, apply_async_with_reservation,
        Prod.mk.injEq, Except.ok.injEq] at h
      exact ⟨_, h.1.symm, rfl, rfl, h.2.symm⟩
  · intro repo q q' resp h
    simp only [RepositoryViewSet.destroy, apply_async_with_reservation,
      Prod.mk.injEq, Except.ok.injEq] at h
    exact ⟨_, h.1.symm, rfl, rfl, h.2.symm⟩
  · intro db repository_pk number q q' resp h
    cases hg : get_object db repository_pk number with
    | none => simp [RepositoryVersionViewSet.destroy, hg] at h
    | some version =>
      simp only [RepositoryVersionViewSet.destroy, hg, apply_async_with_reservation,
        Prod.mk.injEq, Except.ok.injEq] at h
      exact ⟨_, version, rfl, h.1.symm, rfl, rfl, rfl, h.2.symm⟩
  · intro conf repository_pk data q q' resp h
    cases hadd : resolve_content_units conf (data.add_content_units.getD []) with
    | error e => simp [create, hadd] at h
    | ok adds =>
      cases hrem : resolve_content_units conf (data.remove_content_units.getD []) with
      | error e => simp [create, hadd, hrem] at h
      | ok rems =>
        simp only [create, hadd, hrem, apply_async_with_reservation,
          Prod.mk.injEq, Except.ok.injEq] at h
        exact ⟨_, h.1.symm, rfl, rfl, h.2.symm⟩

/-- Witness for C1: each of the four entrypoints, run concretely, enqueues one
task keyed on the repository id and answers with a postponed handle. -/
theorem reservation_key_uniform_witness :
    (∃ t : TaskReservation, ([] : TaskQueue) ++ [t] = [] ++ [t] ∧
      t.tag = RESOURCE_REPOSITORY_TYPE ∧ t.resourceId = "r1" ∧
      Response.operationPostponed [t] = .operationPostponed [t]) ∧
    (∃ t version,
      get_object [⟨"v1", "r1", 1, true⟩] "r1" 1 = some version ∧
      ([] : TaskQueue) ++ [t] = [] ++ [t] ∧ t.tag = RESOURCE_REPOSITORY_TYPE ∧
      t.resourceId = "r1" ∧ t.call = .repositoryDeleteVersion version.pk ∧
      Response.operationPostponed [t] = .operationPostponed [t]) := by
  constructor
  · obtain ⟨t, h1, h2, h3, h4⟩ := (reservation_key_uniform).2.1 ⟨"r1", "repo"⟩ [] _ _ rfl
    exact ⟨t, rfl, h2, h3, rfl⟩
  · obtain ⟨t, version, h0, h1, h2, h3, h4, h5⟩ :=
      (reservation_key_uniform).2.2.1 [⟨"v1", "r1", 1, true⟩] "r1" 1 [] _ _ rfl
    exact ⟨t, version, h0, rfl, h2, h3, h4, rfl⟩

/-- Claim C8: an incomplete version is invisible to the public interface — it
is excluded from the class queryset (hence from list and the content /
added / removed detail routes, which all render `get_object` / the queryset),
`get_object` never returns it, and a delete request addressed at a number
under which only incomplete versions exist answers 404 without enqueuing
anything. -/
theorem incomplete_version_invisible (db : List RepositoryVersion)
    (v : RepositoryVersion) (hv : v ∈ db) (hc : v.complete = false) :
    v ∉ queryset db ∧
    (∀ repository_pk number, get_object db repository_pk number ≠ some v) ∧
    (∀ repository_pk number q,
      (∀ w ∈ db, w.repositoryPk = repository_pk → w.number = number →
        w.complete = false) →
      RepositoryVersionViewSet.destroy db repository_pk number q =
        (q, .error .notFound)) := by
  have hnotin : v ∉ queryset db := by
    intro hmem
    have := List.of_mem_filter hmem
    simp [hc] at this
  refine ⟨hnotin, ?_, ?_⟩
  · intro repository_pk number hgo
    exact hnotin (List.mem_of_find?_eq_some hgo)
  · intro repository_pk number q hall
    have hnone : get_object db repository_pk number = none := by
      rw [get_object, List.find?_eq_none]
      intro x hx
      rw [queryset, List.mem_filter] at hx
      obtain ⟨hxdb, hxc⟩ := hx
      intro hp
      simp only [Bool.and_eq_true, decide_eq_true_eq] at hp
      have := hall x hxdb hp.1 hp.2
      simp [this] at hxc
    simp [RepositoryVersionViewSet.destroy, hnone]

/-- Witness for C8 at a one-row table holding only an incomplete version. -/
theorem incomplete_version_invisible_witness :
    (⟨"v1", "r1", 1, false⟩ : RepositoryVersion) ∉ queryset [⟨"v1", "r1", 1, false⟩] ∧
    (∀ repository_pk number,
      get_object [(⟨"v1", "r1", 1, false⟩ : RepositoryVersion)] repository_pk number ≠
        some ⟨"v1", "r1", 1, false⟩) ∧
    (∀ repository_pk number q,
      (∀ w ∈ [(⟨"v1", "r1", 1, false⟩ : RepositoryVersion)],
        w.repositoryPk = repository_pk → w.number = number → w.complete = false) →
      RepositoryVersionViewSet.destroy [⟨"v1", "r1", 1, false⟩] repository_pk number q =
        (q, .error .notFound)) :=
  incomplete_version_invisible [⟨"v1", "r1", 1, false⟩] ⟨"v1", "r1", 1, false⟩
    (List.mem_singleton_self _) rfl

/-! ### Part 5: deletion guards for a repository version

Modelled from the spec: the body of `tasks.repository.delete_version` (the
task the version viewset enqueues) is not in the excerpt — only its caller
is.  Per the spec, only non-latest, non-initial versions may be deleted, and
deletion fails with Conflict when the version is referenced by a Distribution
or Publication or is the only remaining version of its repository.
-/

/-- The state the delete-version task sees: the version, the owning
repository's versions, and whether external collaborators reference it. -/
structure DeleteVersionCtx where
  version : RepositoryVersion
  repoVersions : List RepositoryVersion
  referencedByDistribution : Bool
  referencedByPublication : Bool

/-- Modelled from the spec: a version is the latest when no version of its
repository has a greater number. -/
def is_latest (ctx : DeleteVersionCtx) : Bool :=
  ctx.repoVersions.all (fun w => decide (w.number ≤ ctx.version.number))

/-- Modelled from the spec: `tasks.repository.delete_version` — reject the
latest version, the initial (number 0) version, a version referenced by a
Distribution or Publication, and the only remaining version, each with
Conflict; otherwise delete. -/
def delete_version (ctx : DeleteVersionCtx) : Except ApiError Unit :=
  if is_latest ctx then .error .conflict
  else if ctx.version.number = 0 then .error .conflict
  else if ctx.referencedByDistribution || ctx.referencedByPublication then .error .conflict
  else if ctx.repoVersions.length = 1 then .error .conflict
  else .ok ()

/-- Claim C7: version deletion succeeds only for non-latest, non-initial
versions, and fails with Conflict whenever the version is referenced by a
Distribution or Publication or is the only remaining version of its
repository. -/
theorem delete_version_guards (ctx : DeleteVersionCtx) :
    (delete_version ctx = .ok () → is_latest ctx = false ∧ ctx.version.number ≠ 0) ∧
    ((ctx.referencedByDistribution || ctx.referencedByPublication) = true ∨
        ctx.repoVersions.length = 1 →
      delete_version ctx = .error .conflict) := by
  constructor
  · intro h
    unfold delete_version at h
    by_cases h1 : is_latest ctx = true
    · simp [h1] at h
    · by_cases h2 : ctx.version.number = 0
      · simp [h1, h2] at h
      · exact ⟨by simpa using h1, h2⟩
  · intro h
    unfold delete_version
    by_cases h1 : is_latest ctx = true
    · simp [h1]
    · by_cases h2 : ctx.version.number = 0
      · simp [h1, h2]
      · rcases h with h | h
        · simp [h1, h2, h]
        · by_cases h3 : (ctx.referencedByDistribution || ctx.referencedByPublication) = true <;>
            simp [h1, h2, h3, h]

/-- Witness for C7: deleting a middle version of a three-version repository is
allowed (hence non-latest, non-initial), and the same version fails with
Conflict when a Distribution references it. -/
theorem delete_version_guards_witness :
    (is_latest ⟨⟨"v1", "r1", 1, true⟩,
        [⟨"v0", "r1", 0, true⟩, ⟨"v1", "r1", 1, true⟩, ⟨"v2", "r1", 2, true⟩],
        false, false⟩ = false ∧
      (⟨⟨"v1", "r1", 1, true⟩,
        [⟨"v0", "r1", 0, true⟩, ⟨"v1", "r1", 1, true⟩, ⟨"v2", "r1", 2, true⟩],
        false, false⟩ : DeleteVersionCtx).version.number ≠ 0) ∧
    delete_version ⟨⟨"v1", "r1", 1, true⟩,
        [⟨"v0", "r1", 0, true⟩, ⟨"v1", "r1", 1, true⟩, ⟨"v2", "r1", 2, true⟩],
        true, false⟩ = .error .conflict :=
  ⟨(delete_version_guards _).1 rfl, (delete_version_guards _).2 (Or.inl rfl)⟩
